import Mathlib

/-!
Verification of the vimbe codex session core: a shallow embedding of
`codex_protocol_event.py`, `codex_protocol_submission.py` and the session
state machine of `codex.py`, together with proofs about the properties the
specification states.

Modelling conventions:
* JSON values are the inductive `Json`; Python `None` and JSON `null` are
  both `Json.null` (Python's `json.loads` maps `null` to `None` and
  `dict.get` returns `None` for a missing key, so the two coincide on the
  decoder's side).  Numbers are `Int` (no float appears in any claim).
* A Python exception raised during decoding is an `Except.error (e : PyErr)`
  value: `json.loads` failure, `KeyError` from `d["k"]`, `AttributeError`
  from calling `.get`/`.items` on a non-dict, and `TypeError` from
  keyword-expansion with wrong keys.
* vim buffer state is carried in `Session` (a vim buffer always holds at
  least one line, hence the initial `[""]`), and every call the session
  makes into vim or onto the wire is recorded as an `Effect`.
-/

inductive Json where
  | null : Json
  | bool (b : Bool) : Json
  | num (n : Int) : Json
  | str (s : String) : Json
  | arr (xs : List Json) : Json
  | obj (fields : List (String × Json)) : Json

/-- Exceptions the Python decoder can raise. -/
inductive PyErr where
  | jsonDecodeError : PyErr
  | keyError (k : String) : PyErr
  | attributeError : PyErr
  | typeError : PyErr
deriving DecidableEq

/-- `d.get(k, dflt)` of a Python dict; on a non-dict the embedding is only
applied behind an explicit dict check, so the non-dict case is arbitrary. -/
def Json.get (d : Json) (k : String) (dflt : Json) : Json :=
  match d with
  | .obj fs =>
    match fs.lookup k with
    | some v => v
    | none => dflt
  | _ => dflt

/-- `d[k]` of Python: `KeyError` on a missing key, `TypeError` when `d` is
not a dict. -/
def Json.getItem (d : Json) (k : String) : Except PyErr Json :=
  match d with
  | .obj fs =>
    match fs.lookup k with
    | some v => .ok v
    | none => .error (.keyError k)
  | _ => .error .typeError

/-- The string held by a Json value, `""` otherwise.  Python compares the
`type` field with string literals; a non-string value compares unequal to
every tag, exactly as the empty string does (no tag is `""`). -/
def Json.asStringD : Json → String
  | .str s => s
  | _ => ""

/-- Python `value == 0` for a decoded JSON value (`False == 0` is true in
Python, so the bool case follows it). -/
def jsonEqZero : Json → Bool
  | .num n => n == 0
  | .bool b => !b
  | _ => false

/-- Python truthiness of a decoded JSON value (used by `reason or ''`). -/
def pyTruthy : Json → Bool
  | .null => false
  | .bool b => b
  | .num n => n != 0
  | .str s => s != ""
  | .arr [] => false
  | .arr (_ :: _) => true
  | .obj [] => false
  | .obj (_ :: _) => true

/-- `FileChangeType` of `codex_protocol_event.py`. -/
inductive FileChangeType where
  | add : FileChangeType
  | delete : FileChangeType
  | update : FileChangeType
deriving DecidableEq

/-- The `.value` of the Python enum member. -/
def FileChangeType.value : FileChangeType → String
  | .add => "add"
  | .delete => "delete"
  | .update => "update"

/-- `FileChange` dataclass: optional fields default to `None` (`Json.null`). -/
structure FileChange where
  type : FileChangeType
  content : Json
  unified_diff : Json
  move_path : Json

/-- `FileChange.from_dict`: tag dispatch on `d.get("type")` with the
unrecognized-tag fallback to a bare `delete`; `.get` on a non-dict raises
`AttributeError`. -/
def FileChange.from_dict (d : Json) : Except PyErr FileChange :=
  match d with
  | .obj _ =>
    let t := (d.get "type" .null).asStringD
    .ok (if t = "add" then ⟨.add, d.get "content" .null, .null, .null⟩
         else if t = "delete" then ⟨.delete, .null, .null, .null⟩
         else if t = "update" then
           ⟨.update, .null, d.get "unified_diff" .null, d.get "move_path" .null⟩
         else ⟨.delete, .null, .null, .null⟩)
  | _ => .error .attributeError

/-- `HistoryEntry` dataclass; field values are not type-checked at runtime
by Python, so they stay raw Json here. -/
structure HistoryEntry where
  session_id : Json
  ts : Json
  text : Json

/-- `HistoryEntry(**entry)`: succeeds exactly on a dict carrying the three
expected keyword keys and no others; anything else raises `TypeError`. -/
def HistoryEntry.fromKwargs (j : Json) : Except PyErr HistoryEntry :=
  match j with
  | .obj fs =>
    match fs.lookup "session_id", fs.lookup "ts", fs.lookup "text" with
    | some si, some ts, some tx =>
      if fs.all (fun p => p.1 == "session_id" || p.1 == "ts" || p.1 == "text")
      then .ok ⟨si, ts, tx⟩
      else .error .typeError
    | _, _, _ => .error .typeError
  | _ => .error .typeError

/-- The `EventMessage` variants of `codex_protocol_event.py`.  Scalar fields
hold the raw decoded Json value exactly as the Python dataclasses do. -/
inductive EventMessage where
  | errorEvent (message : Json)
  | taskStarted
  | taskComplete (last_agent_message : Json)
  | tokenCount (input_tokens cached_input_tokens output_tokens reasoning_output_tokens total_tokens : Json)
  | agentMessage (message : Json)
  | agentReasoning (text : Json)
  | sessionConfigured (session_id model history_log_id history_entry_count : Json)
  | mcpToolCallBegin (call_id server tool arguments : Json)
  | mcpToolCallEnd (call_id result : Json)
  | execCommandBegin (call_id command cwd : Json)
  | execCommandEnd (call_id stdout stderr exit_code : Json)
  | execApprovalRequest (command cwd reason : Json)
  | applyPatchApprovalRequest (changes : List (String × FileChange)) (reason grant_root : Json)
  | backgroundEvent (message : Json)
  | patchApplyBegin (call_id auto_approved : Json) (changes : List (String × FileChange))
  | patchApplyEnd (call_id stdout stderr success : Json)
  | getHistoryEntryResponse (offset log_id : Json) (entry : Option HistoryEntry)
  | unknown (data : Json)

/-- `HistoryEntry(**entry) if entry is not None else None`: a raising
kwargs expansion aborts decoding. -/
def decodeHistoryEntry (j : Json) : Except PyErr (Option HistoryEntry) :=
  match j with
  | .null => .ok none
  | e => (HistoryEntry.fromKwargs e).map some

/-- The dict comprehension `{p: FileChange.from_dict(ch) for p, ch in ...}`:
evaluated in iteration order, the first raising entry aborts decoding. -/
def parseChangesList : List (String × Json) → Except PyErr (List (String × FileChange))
  | [] => .ok []
  | (p, ch) :: rest =>
    match FileChange.from_dict ch with
    | .error e => .error e
    | .ok fc =>
      match parseChangesList rest with
      | .error e => .error e
      | .ok fcs => .ok ((p, fc) :: fcs)

/-- `d.get("changes", {}).items()` followed by the comprehension: a non-dict
`changes` value raises `AttributeError` at the `.items()` call. -/
def parseChanges : Json → Except PyErr (List (String × FileChange))
  | .obj fs => parseChangesList fs
  | _ => .error .attributeError

/-- `EventMessage.from_dict`: the chained `if t == ...` dispatch of the
source, with its documented scalar defaults, ending in the `UnknownEvent`
fallback.  Calling `.get` on a non-dict raises `AttributeError`. -/
def EventMessage.from_dict (d : Json) : Except PyErr EventMessage :=
  match d with
  | .obj _ =>
    let t := (d.get "type" .null).asStringD
    if t = "error" then .ok (.errorEvent (d.get "message" .null))
    else if t = "task_started" then .ok .taskStarted
    else if t = "task_complete" then .ok (.taskComplete (d.get "last_agent_message" .null))
    else if t = "token_count" then
      .ok (.tokenCount (d.get "input_tokens" (.num 0)) (d.get "cached_input_tokens" .null)
        (d.get "output_tokens" (.num 0)) (d.get "reasoning_output_tokens" .null)
        (d.get "total_tokens" (.num 0)))
    else if t = "agent_message" then .ok (.agentMessage (d.get "message" .null))
    else if t = "agent_reasoning" then .ok (.agentReasoning (d.get "text" .null))
    else if t = "session_configured" then
      .ok (.sessionConfigured (d.get "session_id" .null) (d.get "model" .null)
        (d.get "history_log_id" (.num 0)) (d.get "history_entry_count" (.num 0)))
    else if t = "mcp_tool_call_begin" then
      .ok (.mcpToolCallBegin (d.get "call_id" .null) (d.get "server" .null)
        (d.get "tool" .null) (d.get "arguments" .null))
    else if t = "mcp_tool_call_end" then
      .ok (.mcpToolCallEnd (d.get "call_id" .null) (d.get "result" .null))
    else if t = "exec_command_begin" then
      .ok (.execCommandBegin (d.get "call_id" .null) (d.get "command" (.arr []))
        (d.get "cwd" .null))
    else if t = "exec_command_end" then
      .ok (.execCommandEnd (d.get "call_id" .null) (d.get "stdout" .null)
        (d.get "stderr" .null) (d.get "exit_code" (.num 0)))
    else if t = "exec_approval_request" then
      .ok (.execApprovalRequest (d.get "command" (.arr [])) (d.get "cwd" .null)
        (d.get "reason" .null))
    else if t = "apply_patch_approval_request" then
      (parseChanges (d.get "changes" (.obj []))).map (fun chs =>
        .applyPatchApprovalRequest chs (d.get "reason" .null) (d.get "grant_root" .null))
    else if t = "background_event" then .ok (.backgroundEvent (d.get "message" .null))
    else if t = "patch_apply_begin" then
      (parseChanges (d.get "changes" (.obj []))).map (fun chs =>
        .patchApplyBegin (d.get "call_id" .null) (d.get "auto_approved" (.bool false)) chs)
    else if t = "patch_apply_end" then
      .ok (.patchApplyEnd (d.get "call_id" .null) (d.get "stdout" .null)
        (d.get "stderr" .null) (d.get "success" (.bool false)))
    else if t = "get_history_entry_response" then
      (decodeHistoryEntry (d.get "entry" .null)).map (fun h =>
        .getHistoryEntryResponse (d.get "offset" (.num 0)) (d.get "log_id" (.num 0)) h)
    else .ok (.unknown d)
  | _ => .error .attributeError

/-- An inbound `Event`: envelope id plus decoded message. -/
structure Event where
  id : Json
  message : EventMessage

/-- `Event.from_json`: the inbound line is `none` when `json.loads` raised,
otherwise the parsed Json value; then `d["id"]`, `d["msg"]` and the message
decode, each able to raise. -/
def Event.from_json (line : Option Json) : Except PyErr Event :=
  match line with
  | none => .error .jsonDecodeError
  | some d =>
    match d.getItem "id" with
    | .error e => .error e
    | .ok i =>
      match d.getItem "msg" with
      | .error e => .error e
      | .ok mraw =>
        match EventMessage.from_dict mraw with
        | .error e => .error e
        | .ok m => .ok ⟨i, m⟩

/-- `isPrefixL pat l`: `pat` is a leading substring of `l` (char-list level,
structural so the kernel can evaluate it). -/
def isPrefixL : List Char → List Char → Bool
  | [], _ => true
  | _ :: _, [] => false
  | a :: as, b :: bs => a == b && isPrefixL as bs

/-- `occursL pat l`: the pattern occurs somewhere in `l` (`re.search` for the
literal patterns the session uses). -/
def occursL (pat : List Char) : List Char → Bool
  | [] => isPrefixL pat []
  | c :: rest => isPrefixL pat (c :: rest) || occursL pat rest

/-- Left-to-right non-overlapping replacement of every occurrence of `pat`
(`re.sub` for a literal pattern); fueled by the input length so the
recursion is structural. -/
def replaceAllAux (pat repl : List Char) : Nat → List Char → List Char
  | 0, l => l
  | _ + 1, [] => []
  | fuel + 1, c :: rest =>
    if pat.length != 0 && isPrefixL pat (c :: rest)
    then repl ++ replaceAllAux pat repl fuel ((c :: rest).drop pat.length)
    else c :: replaceAllAux pat repl fuel rest

def occursStr (s pat : String) : Bool := occursL pat.data s.data

def replaceStr (s pat repl : String) : String :=
  .mk (replaceAllAux pat.data repl.data s.data.length s.data)

/-- Split a char list at newlines (keeps a trailing empty chunk). -/
def splitNlAux : List Char → List Char → List (List Char)
  | [], acc => [acc.reverse]
  | c :: rest, acc =>
    if c == '\n' then acc.reverse :: splitNlAux rest []
    else splitNlAux rest (c :: acc)

/-- Python `str.splitlines` for strings whose only line break is `'\n'`:
empty string gives `[]`, and a trailing newline does not produce a trailing
empty line. -/
def splitlines (s : String) : List String :=
  match s.data with
  | [] => []
  | l =>
    let parts := (splitNlAux l []).map String.mk
    if l.getLast? = some '\n' then parts.dropLast else parts

/-- Python `sep.join(parts)`. -/
def joinSep (sep : String) : List String → String
  | [] => ""
  | [x] => x
  | x :: y :: xs => x ++ sep ++ joinSep sep (y :: xs)

mutual

/-- Python `repr` of a decoded JSON value, as `str` shows it inside
containers (string quoting of embedded quotes is not modelled; no claim
depends on the rendered text). -/
def reprJson : Json → String
  | .null => "None"
  | .bool true => "True"
  | .bool false => "False"
  | .num n => toString n
  | .str s => "\x27" ++ s ++ "\x27"
  | .arr xs => "[" ++ reprJsonList xs ++ "]"
  | .obj fs => "\x7b" ++ reprJsonFields fs ++ "\x7d"

def reprJsonList : List Json → String
  | [] => ""
  | [x] => reprJson x
  | x :: y :: xs => reprJson x ++ ", " ++ reprJsonList (y :: xs)

def reprJsonFields : List (String × Json) → String
  | [] => ""
  | [(k, v)] => "\x27" ++ k ++ "\x27: " ++ reprJson v
  | (k, v) :: q :: fs => "\x27" ++ k ++ "\x27: " ++ reprJson v ++ ", " ++ reprJsonFields (q :: fs)

end

/-- Python `str` of a decoded JSON value (an f-string interpolation). -/
def pyStrVal : Json → String
  | .str s => s
  | j => reprJson j

/-- Python `x or ''` rendered into an f-string. -/
def orEmpty (j : Json) : String := if pyTruthy j then pyStrVal j else ""

/-- `' '.join(message.command)`; the source only ever receives lists of
strings here, non-string members are rendered with `str` instead of the
`TypeError` Python would raise (no claim reaches that case). -/
def joinCommand : Json → String
  | .arr xs => joinSep " " (xs.map pyStrVal)
  | j => pyStrVal j

/-- Python `repr` of a `FileChange` dataclass instance. -/
def reprFileChange (fc : FileChange) : String :=
  "FileChange(type=<FileChangeType." ++
    (match fc.type with
     | .add => "ADD"
     | .delete => "DELETE"
     | .update => "UPDATE") ++
    ": \x27" ++ fc.type.value ++ "\x27>, content=" ++ reprJson fc.content ++
    ", unified_diff=" ++ reprJson fc.unified_diff ++
    ", move_path=" ++ reprJson fc.move_path ++ ")"

/-- Python `repr` of a `dict[str, FileChange]`. -/
def reprChanges (chs : List (String × FileChange)) : String :=
  "\x7b" ++
    joinSep ", " (chs.map (fun pc => "\x27" ++ pc.1 ++ "\x27: " ++ reprFileChange pc.2)) ++
    "\x7d"

/-- Python `repr` of an `Option HistoryEntry`. -/
def reprHistoryEntry : Option HistoryEntry → String
  | none => "None"
  | some h =>
    "HistoryEntry(session_id=" ++ reprJson h.session_id ++ ", ts=" ++ reprJson h.ts ++
      ", text=" ++ reprJson h.text ++ ")"

/-- `str(event.message)`: the generated dataclass `repr`.  `UnknownEvent`
declares no dataclass fields (its payload is set in a custom `__init__`),
so its repr is the bare `UnknownEvent()`. -/
def renderMessage : EventMessage → String
  | .errorEvent m => "ErrorEvent(message=" ++ reprJson m ++ ")"
  | .taskStarted => "TaskStarted()"
  | .taskComplete lam => "TaskCompleteEvent(last_agent_message=" ++ reprJson lam ++ ")"
  | .tokenCount it cit ot rot tt =>
    "TokenCount(input_tokens=" ++ reprJson it ++ ", cached_input_tokens=" ++ reprJson cit ++
      ", output_tokens=" ++ reprJson ot ++ ", reasoning_output_tokens=" ++ reprJson rot ++
      ", total_tokens=" ++ reprJson tt ++ ")"
  | .agentMessage m => "AgentMessageEvent(message=" ++ reprJson m ++ ")"
  | .agentReasoning t => "AgentReasoningEvent(text=" ++ reprJson t ++ ")"
  | .sessionConfigured si mo hl hc =>
    "SessionConfiguredEvent(session_id=" ++ reprJson si ++ ", model=" ++ reprJson mo ++
      ", history_log_id=" ++ reprJson hl ++ ", history_entry_count=" ++ reprJson hc ++ ")"
  | .mcpToolCallBegin ci se tl ar =>
    "McpToolCallBeginEvent(call_id=" ++ reprJson ci ++ ", server=" ++ reprJson se ++
      ", tool=" ++ reprJson tl ++ ", arguments=" ++ reprJson ar ++ ")"
  | .mcpToolCallEnd ci re =>
    "McpToolCallEndEvent(call_id=" ++ reprJson ci ++ ", result=" ++ reprJson re ++ ")"
  | .execCommandBegin ci co cw =>
    "ExecCommandBeginEvent(call_id=" ++ reprJson ci ++ ", command=" ++ reprJson co ++
      ", cwd=" ++ reprJson cw ++ ")"
  | .execCommandEnd ci so se ec =>
    "ExecCommandEndEvent(call_id=" ++ reprJson ci ++ ", stdout=" ++ reprJson so ++
      ", stderr=" ++ reprJson se ++ ", exit_code=" ++ reprJson ec ++ ")"
  | .execApprovalRequest co cw re =>
    "ExecApprovalRequestEvent(command=" ++ reprJson co ++ ", cwd=" ++ reprJson cw ++
      ", reason=" ++ reprJson re ++ ")"
  | .applyPatchApprovalRequest chs re gr =>
    "ApplyPatchApprovalRequestEvent(changes=" ++ reprChanges chs ++ ", reason=" ++ reprJson re ++
      ", grant_root=" ++ reprJson gr ++ ")"
  | .backgroundEvent m => "BackgroundEvent(message=" ++ reprJson m ++ ")"
  | .patchApplyBegin ci aa chs =>
    "PatchApplyBeginEvent(call_id=" ++ reprJson ci ++ ", auto_approved=" ++ reprJson aa ++
      ", changes=" ++ reprChanges chs ++ ")"
  | .patchApplyEnd ci so se su =>
    "PatchApplyEndEvent(call_id=" ++ reprJson ci ++ ", stdout=" ++ reprJson so ++
      ", stderr=" ++ reprJson se ++ ", success=" ++ reprJson su ++ ")"
  | .getHistoryEntryResponse o l e =>
    "GetHistoryEntryResponseEvent(offset=" ++ reprJson o ++ ", log_id=" ++ reprJson l ++
      ", entry=" ++ reprHistoryEntry e ++ ")"
  | .unknown _ => "UnknownEvent()"

/-- `ReviewDecision` of `codex_protocol_submission.py`. -/
inductive ReviewDecision where
  | approved : ReviewDecision
  | approvedForSession : ReviewDecision
  | denied : ReviewDecision
  | abort : ReviewDecision
deriving DecidableEq

/-- The submission operations the session state machine can send.  The
envelope `Submission.id` is a fresh uuid generated at send time and carries
no information the claims quantify over; the payload `id` of the approval
operations is the field the protocol correlates on. -/
inductive SubmissionOperation where
  | interrupt
  | userInput (text : String)
  | execApproval (id : Json) (decision : ReviewDecision)
  | patchApproval (id : Json) (decision : ReviewDecision)

/-- One observable call the session makes: a wire send, a vim buffer/UI
update, or process control.  `setOutputBufferName` doubles as the
idle/busy title notification of the Presentation Sink. -/
inductive Effect where
  | send (op : SubmissionOperation)
  | appendOutput (text : String)
  | replaceLastOutputLine (pattern repl : String)
  | setOutputBufferName (name : String)
  | showStatusInInput (text : String)
  | hideStatusInInput
  | showPatchPreview (path : String) (unified_diff : Json)
  | hidePatchPreview
  | stopJob
  | deleteBuffers
  | deletePatchBuffer
  | printMessage (text : String)

/-- `"exec" | "patch"` of `CodexSession.last_approval_request_type`. -/
inductive ApprovalKind where
  | exec : ApprovalKind
  | patch : ApprovalKind
deriving DecidableEq

/-- The mutable state of one `CodexSession`: the two vim buffers it owns
(a vim buffer never has fewer than one line) and the pending-approval
fields.  The busy/idle indication lives in the output buffer's name. -/
structure Session where
  outputName : String
  outputLines : List String
  inputLines : List String
  lastApprovalRequestType : Option ApprovalKind
  lastApprovalRequestSubmissionId : Json

def readyTitle : String := "CODEX output [READY]"

def thinkingTitle : String := "CODEX output [THINKING...]"

/-- The session right after `CodexSession.__init__` builds its buffers. -/
def initialSession : Session :=
  { outputName := readyTitle
    outputLines := [""]
    inputLines := [""]
    lastApprovalRequestType := none
    lastApprovalRequestSubmissionId := .null }

/-- vim `buffer[:] = lines` keeps one empty line when `lines` is empty. -/
def setBufferLines (xs : List String) : List String :=
  if xs = [] then [""] else xs

/-- `CodexBuffers.append_output`: `buffer.append(text.splitlines() + [""])`. -/
def appendOutput (s : Session) (text : String) : Session × List Effect :=
  ({ s with outputLines := s.outputLines ++ splitlines text ++ [""] },
   [.appendOutput text])

/-- The one line-rewrite `CodexBuffers.replace_last_output_line` applies to
a single buffer line: `re.sub` guarded by `re.search` (the loop body runs
for every matching index, so per line the rewrite is independent). -/
def substLine (pattern repl line : String) : String :=
  if occursStr line pattern then replaceStr line pattern repl else line

/-- `CodexBuffers.replace_last_output_line`: despite its name the loop has
no `break`, so every line matching the pattern is rewritten. -/
def replace_last_output_line (s : Session) (pattern repl : String) : Session × List Effect :=
  ({ s with outputLines := s.outputLines.map (substLine pattern repl) },
   [.replaceLastOutputLine pattern repl])

/-- `CodexBuffers.show_status_in_input`. -/
def showStatusInInput (s : Session) (text : String) : Session × List Effect :=
  ({ s with inputLines := setBufferLines (splitlines text) }, [.showStatusInInput text])

/-- `CodexBuffers.hide_status_in_input`: `input_buffer[:] = []`. -/
def hideStatusInInput (s : Session) : Session × List Effect :=
  ({ s with inputLines := [""] }, [.hideStatusInInput])

/-- Predicate matching Python's `ch.type == FileChangeType.UPDATE`. -/
def isUpdateChange (pc : String × FileChange) : Bool :=
  match pc.2.type with
  | .update => true
  | _ => false

/-- `CodexSession._file_changes_summary`:
`"\n".join(f"{change.type.value} {path}")` over the changes in iteration
order. -/
def file_changes_summary (changes : List (String × FileChange)) : String :=
  joinSep "\n" (changes.map (fun pc => pc.2.type.value ++ " " ++ pc.1))

/-- The literal text `re` searches for in `_handle_exec_command_end`
(the regex `command \(running\.\.\.\)` escapes to this literal). -/
def runningPattern : String := "command (running...)"

/-- `CodexSession._handle_job_output`'s dispatch over a decoded event, with
each named `_handle_*` method inlined at its `isinstance` branch.  The
final `else` appends `str(event.message)` — the generic render-raw path. -/
def handleEvent (s : Session) (id : Json) (m : EventMessage) : Session × List Effect :=
  match m with
  | .agentMessage msg => appendOutput s ("codex\n" ++ pyStrVal msg)
  | .agentReasoning txt => appendOutput s ("codex (reasoning)\n" ++ pyStrVal txt)
  | .errorEvent msg => appendOutput s ("ERROR\n" ++ pyStrVal msg)
  | .taskStarted =>
    ({ s with outputName := thinkingTitle }, [.setOutputBufferName thinkingTitle])
  | .taskComplete _ =>
    ({ s with outputName := readyTitle }, [.setOutputBufferName readyTitle])
  | .execApprovalRequest command cwd reason =>
    let text := "EXEC APPROVAL REQUEST: " ++ orEmpty reason ++ "\n[" ++ pyStrVal cwd ++ "]$ " ++
      joinCommand command
    let s1 := { s with lastApprovalRequestType := some .exec,
                       lastApprovalRequestSubmissionId := id }
    showStatusInInput s1 text
  | .execCommandBegin _ command _ =>
    appendOutput s ("command (running...)\n$ " ++ joinCommand command)
  | .execCommandEnd _ _ _ exit_code =>
    replace_last_output_line s runningPattern
      (if jsonEqZero exit_code then "command (OK)" else "command (ERROR)")
  | .applyPatchApprovalRequest changes reason _ =>
    let text := "PATCH APPROVAL REQUEST: " ++ orEmpty reason ++ "\n" ++
      file_changes_summary changes
    let s1 := { s with lastApprovalRequestType := some .patch,
                       lastApprovalRequestSubmissionId := id }
    let r := showStatusInInput s1 text
    match changes.filter isUpdateChange with
    | [] => r
    | (p, ch) :: _ => (r.1, r.2 ++ [.showPatchPreview p ch.unified_diff])
  | .patchApplyBegin ci aa chs => appendOutput s (renderMessage (.patchApplyBegin ci aa chs))
  | .patchApplyEnd ci so se su => appendOutput s (renderMessage (.patchApplyEnd ci so se su))
  | m => appendOutput s (renderMessage m)

/-- Run a list of already-decoded events through the dispatcher, collecting
every effect in order. -/
def dispatchEvents (s : Session) : List (Json × EventMessage) → Session × List Effect
  | [] => (s, [])
  | (i, m) :: rest =>
    let r1 := handleEvent s i m
    let r2 := dispatchEvents r1.1 rest
    (r2.1, r1.2 ++ r2.2)

/-- `CodexSession.approval`: silently does nothing unless an approval
request is pending; otherwise sends the matching decision addressed to the
stored submission id, hides the patch preview for patch approvals, clears
the input-status line and resets the pending kind (the stored id is left
behind). -/
def CodexSession.approval (s : Session) (decision : ReviewDecision) : Session × List Effect :=
  match s.lastApprovalRequestType with
  | none => (s, [])
  | some .exec =>
    ({ s with inputLines := [""], lastApprovalRequestType := none },
     [.send (.execApproval s.lastApprovalRequestSubmissionId decision), .hideStatusInInput])
  | some .patch =>
    ({ s with inputLines := [""], lastApprovalRequestType := none },
     [.send (.patchApproval s.lastApprovalRequestSubmissionId decision), .hidePatchPreview,
      .hideStatusInInput])

/-- `CodexSession.stop`: kill the job and delete the buffers.  No field of
the session object is written and no flag records the stop. -/
def CodexSession.stop (s : Session) : Session × List Effect :=
  (s, [.stopJob, .deleteBuffers, .deletePatchBuffer])

/-- Module-level `stop_codex_session` under its `if_session_exists` guard:
the global `codex_session` is dropped after the first call, the second call
only prints. -/
def stop_codex_session : Option Session → Option Session × List Effect
  | some s => (none, (CodexSession.stop s).2)
  | none => (none, [.printMessage "Codex session does not exist."])

/-- `CodexSession._handle_job_output`: decode, then dispatch.  There is no
`try`/`except` around `Event.from_json`, so a decode exception propagates
out of the handler as the `.error` case. -/
def handle_job_output (s : Session) (line : Option Json) : Except PyErr (Session × List Effect) :=
  match Event.from_json line with
  | .error e => .error e
  | .ok ev => .ok (handleEvent s ev.id ev.message)

/-- A Json value is a dict. -/
def isObjJ : Json → Bool
  | .obj _ => true
  | _ => false

/-- The nested `changes` payload decodes without raising: it is a dict and
every value in it is a dict. -/
def changesWellFormed (j : Json) : Bool :=
  match j with
  | .obj fs => fs.all (fun pc => isObjJ pc.2)
  | _ => false

/-- The `entry` payload of `get_history_entry_response` decodes without
raising: absent/null, or a dict carrying exactly the three
`HistoryEntry` keys. -/
def entryWellFormed (j : Json) : Bool :=
  match j with
  | .null => true
  | .obj fs =>
    (fs.lookup "session_id").isSome && (fs.lookup "ts").isSome && (fs.lookup "text").isSome &&
      fs.all (fun p => p.1 == "session_id" || p.1 == "ts" || p.1 == "text")
  | _ => false

/-- The `msg` object decodes without raising: it is a dict, and for the
three tags with nested payloads the payload is well formed (the chain
mirrors the dispatch order of `EventMessage.from_dict`; every branch
without a nested payload decodes unconditionally). -/
def msgWellFormed (m : Json) : Bool :=
  match m with
  | .obj _ =>
    let t := (m.get "type" .null).asStringD
    if t = "error" then true
    else if t = "task_started" then true
    else if t = "task_complete" then true
    else if t = "token_count" then true
    else if t = "agent_message" then true
    else if t = "agent_reasoning" then true
    else if t = "session_configured" then true
    else if t = "mcp_tool_call_begin" then true
    else if t = "mcp_tool_call_end" then true
    else if t = "exec_command_begin" then true
    else if t = "exec_command_end" then true
    else if t = "exec_approval_request" then true
    else if t = "apply_patch_approval_request" then changesWellFormed (m.get "changes" (.obj []))
    else if t = "background_event" then true
    else if t = "patch_apply_begin" then changesWellFormed (m.get "changes" (.obj []))
    else if t = "patch_apply_end" then true
    else if t = "get_history_entry_response" then entryWellFormed (m.get "entry" .null)
    else true
  | _ => false

/-- An inbound line decodes without raising: it parses as JSON, the parse is
a dict carrying an `id` and a `msg` key, and the `msg` payload is well
formed. -/
def wellFormedLine : Option Json → Bool
  | none => false
  | some (.obj fs) =>
    (fs.lookup "id").isSome &&
      (match fs.lookup "msg" with
       | some m => msgWellFormed m
       | none => false)
  | some _ => false

theorem fileChange_from_dict_err_iff (j : Json) :
    (∃ e, FileChange.from_dict j = .error e) ↔ isObjJ j = false := by
  cases j <;> simp [FileChange.from_dict, isObjJ]

theorem parseChangesList_err_iff (fs : List (String × Json)) :
    (∃ e, parseChangesList fs = .error e) ↔ fs.all (fun pc => isObjJ pc.2) = false := by
  induction fs with
  | nil => simp [parseChangesList]
  | cons pc rest ih =>
    obtain ⟨p, ch⟩ := pc
    simp only [parseChangesList, List.all_cons]
    cases hfc : FileChange.from_dict ch with
    | error e =>
      have hobj : isObjJ ch = false := (fileChange_from_dict_err_iff ch).mp ⟨e, hfc⟩
      simp [hobj]
    | ok fc =>
      have hobj : isObjJ ch = true := by
        cases hio : isObjJ ch with
        | true => rfl
        | false =>
          obtain ⟨e, he⟩ := (fileChange_from_dict_err_iff ch).mpr hio
          rw [hfc] at he
          exact Except.noConfusion he
      rw [hobj, Bool.true_and]
      cases hrest : parseChangesList rest with
      | error e =>
        have hfalse : (rest.all fun pc => isObjJ pc.2) = false := ih.mp ⟨e, hrest⟩
        simp [hfalse]
      | ok fcs =>
        have htrue : (rest.all fun pc => isObjJ pc.2) = true := by
          cases hr : rest.all (fun pc => isObjJ pc.2) with
          | true => rfl
          | false =>
            obtain ⟨e, he⟩ := ih.mpr hr
            rw [hrest] at he
            exact Except.noConfusion he
        simp [htrue]

theorem parseChanges_err_iff (j : Json) :
    (∃ e, parseChanges j = .error e) ↔ changesWellFormed j = false := by
  cases j <;> simp [parseChanges, changesWellFormed, parseChangesList_err_iff]

theorem HistoryEntry.fromKwargs_err_iff (j : Json) (hne : j ≠ .null) :
    (∃ e, HistoryEntry.fromKwargs j = .error e) ↔ entryWellFormed j = false := by
  cases j with
  | null => exact absurd rfl hne
  | obj fs =>
    simp only [HistoryEntry.fromKwargs, entryWellFormed]
    cases h1 : fs.lookup "session_id" with
    | none => simp [h1]
    | some si =>
      cases h2 : fs.lookup "ts" with
      | none => simp [h1, h2]
      | some ts =>
        cases h3 : fs.lookup "text" with
        | none => simp [h1, h2, h3]
        | some tx =>
          cases hall : fs.all (fun p => p.1 == "session_id" || p.1 == "ts" || p.1 == "text") with
          | false =>
            simp only [h1, h2, h3, hall, Option.isSome_some, Bool.true_and, Bool.and_false,
              if_neg Bool.false_ne_true]
            simp
          | true =>
            simp only [h1, h2, h3, hall, Option.isSome_some, Bool.true_and, Bool.and_true,
              if_pos rfl]
            simp
  | bool b => simp [HistoryEntry.fromKwargs, entryWellFormed]
  | num n => simp [HistoryEntry.fromKwargs, entryWellFormed]
  | str s => simp [HistoryEntry.fromKwargs, entryWellFormed]
  | arr xs => simp [HistoryEntry.fromKwargs, entryWellFormed]

theorem exceptMap_err_iff {α β : Type} (f : α → β) (x : Except PyErr α) :
    (∃ e, x.map f = .error e) ↔ (∃ e, x = .error e) := by
  cases x <;> simp [Except.map]

theorem decodeHistoryEntry_err_iff (j : Json) :
    (∃ e, decodeHistoryEntry j = .error e) ↔ entryWellFormed j = false := by
  cases j with
  | null => simp [decodeHistoryEntry, entryWellFormed]
  | bool b =>
    rw [show decodeHistoryEntry (.bool b) = (HistoryEntry.fromKwargs (.bool b)).map some from rfl,
      exceptMap_err_iff]
    exact HistoryEntry.fromKwargs_err_iff _ (fun h => Json.noConfusion h)
  | num n =>
    rw [show decodeHistoryEntry (.num n) = (HistoryEntry.fromKwargs (.num n)).map some from rfl,
      exceptMap_err_iff]
    exact HistoryEntry.fromKwargs_err_iff _ (fun h => Json.noConfusion h)
  | str s =>
    rw [show decodeHistoryEntry (.str s) = (HistoryEntry.fromKwargs (.str s)).map some from rfl,
      exceptMap_err_iff]
    exact HistoryEntry.fromKwargs_err_iff _ (fun h => Json.noConfusion h)
  | arr xs =>
    rw [show decodeHistoryEntry (.arr xs) = (HistoryEntry.fromKwargs (.arr xs)).map some from rfl,
      exceptMap_err_iff]
    exact HistoryEntry.fromKwargs_err_iff _ (fun h => Json.noConfusion h)
  | obj gs =>
    rw [show decodeHistoryEntry (.obj gs) = (HistoryEntry.fromKwargs (.obj gs)).map some from rfl,
      exceptMap_err_iff]
    exact HistoryEntry.fromKwargs_err_iff _ (fun h => Json.noConfusion h)

theorem eventMessage_from_dict_err_iff (d : Json) :
    (∃ e, EventMessage.from_dict d = .error e) ↔ msgWellFormed d = false := by
  cases d with
  | null => simp [EventMessage.from_dict, msgWellFormed]
  | bool b => simp [EventMessage.from_dict, msgWellFormed]
  | num n => simp [EventMessage.from_dict, msgWellFormed]
  | str s => simp [EventMessage.from_dict, msgWellFormed]
  | arr xs => simp [EventMessage.from_dict, msgWellFormed]
  | obj fs =>
    simp only [EventMessage.from_dict, msgWellFormed]
    generalize ((Json.obj fs).get "type" Json.null).asStringD = t
    by_cases h1 : t = "error"
    · simp [h1]
    rw [if_neg h1, if_neg h1]
    by_cases h2 : t = "task_started"
    · simp [h2]
    rw [if_neg h2, if_neg h2]
    by_cases h3 : t = "task_complete"
    · simp [h3]
    rw [if_neg h3, if_neg h3]
    by_cases h4 : t = "token_count"
    · simp [h4]
    rw [if_neg h4, if_neg h4]
    by_cases h5 : t = "agent_message"
    · simp [h5]
    rw [if_neg h5, if_neg h5]
    by_cases h6 : t = "agent_reasoning"
    · simp [h6]
    rw [if_neg h6, if_neg h6]
    by_cases h7 : t = "session_configured"
    · simp [h7]
    rw [if_neg h7, if_neg h7]
    by_cases h8 : t = "mcp_tool_call_begin"
    · simp [h8]
    rw [if_neg h8, if_neg h8]
    by_cases h9 : t = "mcp_tool_call_end"
    · simp [h9]
    rw [if_neg h9, if_neg h9]
    by_cases h10 : t = "exec_command_begin"
    · simp [h10]
    rw [if_neg h10, if_neg h10]
    by_cases h11 : t = "exec_command_end"
    · simp [h11]
    rw [if_neg h11, if_neg h11]
    by_cases h12 : t = "exec_approval_request"
    · simp [h12]
    rw [if_neg h12, if_neg h12]
    by_cases h13 : t = "apply_patch_approval_request"
    · simp [h13, exceptMap_err_iff, parseChanges_err_iff]
    rw [if_neg h13, if_neg h13]
    by_cases h14 : t = "background_event"
    · simp [h14]
    rw [if_neg h14, if_neg h14]
    by_cases h15 : t = "patch_apply_begin"
    · simp [h15, exceptMap_err_iff, parseChanges_err_iff]
    rw [if_neg h15, if_neg h15]
    by_cases h16 : t = "patch_apply_end"
    · simp [h16]
    rw [if_neg h16, if_neg h16]
    by_cases h17 : t = "get_history_entry_response"
    · simp [h17, exceptMap_err_iff, decodeHistoryEntry_err_iff]
    rw [if_neg h17, if_neg h17]
    simp

theorem Event.from_json_err_iff (line : Option Json) :
    (∃ e, Event.from_json line = .error e) ↔ wellFormedLine line = false := by
  cases line with
  | none => simp [Event.from_json, wellFormedLine]
  | some d =>
    cases d with
    | null => simp [Event.from_json, Json.getItem, wellFormedLine]
    | bool b => simp [Event.from_json, Json.getItem, wellFormedLine]
    | num n => simp [Event.from_json, Json.getItem, wellFormedLine]
    | str s => simp [Event.from_json, Json.getItem, wellFormedLine]
    | arr xs => simp [Event.from_json, Json.getItem, wellFormedLine]
    | obj fs =>
      simp only [Event.from_json, Json.getItem, wellFormedLine]
      cases hid : fs.lookup "id" with
      | none => simp
      | some i =>
        cases hmsg : fs.lookup "msg" with
        | none => simp
        | some m =>
          simp only [Option.isSome_some, Bool.true_and]
          cases hfd : EventMessage.from_dict m with
          | error e =>
            have hmw : msgWellFormed m = false := (eventMessage_from_dict_err_iff m).mp ⟨e, hfd⟩
            simp [hmw]
          | ok ev =>
            have hmw : msgWellFormed m = true := by
              cases hx : msgWellFormed m with
              | true => rfl
              | false =>
                obtain ⟨e, he⟩ := (eventMessage_from_dict_err_iff m).mpr hx
                rw [hfd] at he
                exact Except.noConfusion he
            simp [hmw]

/-- Effects that put a submission on the wire. -/
def isSendEffect : Effect → Bool
  | .send _ => true
  | _ => false

/-- The outbound submissions among a list of effects. -/
def sendsOf (l : List Effect) : List Effect := l.filter isSendEffect

/-- The observable task status of §4.3: the session encodes busy-ness
solely in the output buffer's name. -/
inductive TaskStatus where
  | idle : TaskStatus
  | busy : TaskStatus
deriving DecidableEq

def taskStatus (s : Session) : TaskStatus :=
  if s.outputName = thinkingTitle then .busy else .idle

/-- The "ready" notification to the sink: renaming the output buffer back
to its READY title. -/
def isReadyNotif : Effect → Bool
  | .setOutputBufferName n => n == readyTitle
  | _ => false

def countReady (l : List Effect) : Nat := (l.filter isReadyNotif).length

def isTaskLifecycleEvent : EventMessage → Bool
  | .taskStarted => true
  | .taskComplete _ => true
  | _ => false

def isPreviewEffect : Effect → Bool
  | .showPatchPreview _ _ => true
  | _ => false

/-- Claim C1: with a pending exec approval whose stored submission id is
the id of the triggering event, `approval` sends exactly one
`exec_approval` whose payload id is that stored id (for patch, one
`patch_approval`), clears the approval UI, and resets the pending state to
no-pending.  The first conjunct ties the stored id to the event envelope
id for both request kinds. -/
theorem c1_approval_correlation :
    (∀ (s0 : Session) (i c w r : Json),
      (handleEvent s0 i (.execApprovalRequest c w r)).1.lastApprovalRequestType = some .exec ∧
      (handleEvent s0 i (.execApprovalRequest c w r)).1.lastApprovalRequestSubmissionId = i) ∧
    (∀ (s0 : Session) (i r g : Json) (chs : List (String × FileChange)),
      (handleEvent s0 i (.applyPatchApprovalRequest chs r g)).1.lastApprovalRequestType =
          some .patch ∧
      (handleEvent s0 i (.applyPatchApprovalRequest chs r g)).1.lastApprovalRequestSubmissionId =
          i) ∧
    (∀ (s : Session) (d : ReviewDecision),
      s.lastApprovalRequestType = some .exec →
      sendsOf (CodexSession.approval s d).2 =
          [.send (.execApproval s.lastApprovalRequestSubmissionId d)] ∧
      (CodexSession.approval s d).2 =
          [.send (.execApproval s.lastApprovalRequestSubmissionId d), .hideStatusInInput] ∧
      (CodexSession.approval s d).1.lastApprovalRequestType = none) ∧
    (∀ (s : Session) (d : ReviewDecision),
      s.lastApprovalRequestType = some .patch →
      sendsOf (CodexSession.approval s d).2 =
          [.send (.patchApproval s.lastApprovalRequestSubmissionId d)] ∧
      (CodexSession.approval s d).2 =
          [.send (.patchApproval s.lastApprovalRequestSubmissionId d), .hidePatchPreview,
            .hideStatusInInput] ∧
      (CodexSession.approval s d).1.lastApprovalRequestType = none) := by
  refine ⟨fun s0 i c w r => ⟨rfl, rfl⟩, fun s0 i r g chs => ?_, fun s d h => ?_, fun s d h => ?_⟩
  · rcases hf : chs.filter isUpdateChange with _ | ⟨⟨p0, ch0⟩, rest⟩ <;>
      simp [handleEvent, hf, showStatusInInput]
  · simp [CodexSession.approval, h, sendsOf, isSendEffect]
  · simp [CodexSession.approval, h, sendsOf, isSendEffect]

/-- Witness for C1 at a concrete pending-exec session with event id "42". -/
theorem c1_approval_correlation_witness :
    (handleEvent initialSession (.str "42")
        (.execApprovalRequest (.arr []) .null .null)).1.lastApprovalRequestSubmissionId =
      .str "42" ∧
    sendsOf (CodexSession.approval
        { initialSession with lastApprovalRequestType := some .exec,
                              lastApprovalRequestSubmissionId := .str "42" } .approved).2 =
      [.send (.execApproval (.str "42") .approved)] ∧
    (CodexSession.approval
        { initialSession with lastApprovalRequestType := some .exec,
                              lastApprovalRequestSubmissionId := .str "42" } .approved).1.lastApprovalRequestType =
      none := by
  refine ⟨(c1_approval_correlation.1 initialSession (.str "42") (.arr []) .null .null).2, ?_, ?_⟩
  · exact (c1_approval_correlation.2.2.1 _ .approved rfl).1
  · exact (c1_approval_correlation.2.2.1 _ .approved rfl).2.2

/-- Claim C7 (amended): a second `approval` call after one approval request
sends nothing, and with no pending approval the call is a silent no-op —
state unchanged and no effect at all, hence nothing is reported to the
caller. -/
theorem c7_no_double_approval :
    (∀ (s : Session) (d : ReviewDecision),
      s.lastApprovalRequestType = none → CodexSession.approval s d = (s, [])) ∧
    (∀ (s : Session) (d d2 : ReviewDecision),
      s.lastApprovalRequestType ≠ none →
      (sendsOf (CodexSession.approval s d).2).length = 1 ∧
      CodexSession.approval (CodexSession.approval s d).1 d2 =
          ((CodexSession.approval s d).1, []) ∧
      (sendsOf ((CodexSession.approval s d).2 ++
          (CodexSession.approval (CodexSession.approval s d).1 d2).2)).length = 1) := by
  constructor
  · intro s d h
    simp [CodexSession.approval, h]
  · intro s d d2 h
    rcases hk : s.lastApprovalRequestType with _ | k
    · exact absurd hk h
    · cases k <;> simp [CodexSession.approval, hk, sendsOf, isSendEffect]

/-- Witness for C7 at a concrete pending-exec session. -/
theorem c7_no_double_approval_witness :
    CodexSession.approval initialSession .approved = (initialSession, []) ∧
    (sendsOf (CodexSession.approval
        { initialSession with lastApprovalRequestType := some .exec,
                              lastApprovalRequestSubmissionId := .str "7" } .denied).2).length = 1 := by
  refine ⟨c7_no_double_approval.1 initialSession .approved rfl, ?_⟩
  exact (c7_no_double_approval.2
    { initialSession with lastApprovalRequestType := some .exec,
                          lastApprovalRequestSubmissionId := .str "7" } .denied .denied
    (by intro h; exact Option.noConfusion h)).1

/-- Counterexample for C7 as stated: with no pending approval, `approval`
produces no effect whatsoever — in particular no message or report of a
benign "nothing to approve" condition; the no-op is silent, contradicting
"reported to the caller ... rather than ... a silent pass". -/
theorem c7_counterexample :
    CodexSession.approval initialSession .approved = (initialSession, []) := rfl

/-- Claim C9 (amended): `stop` kills the job and deletes the buffers while
sending no decision, and the module-level `stop_codex_session` is an
idempotent reported no-op on the second call; but the session object keeps
no stopped flag, so a direct second `stop` re-issues the teardown commands
and a later `on_event` dispatch behaves exactly as before the stop. -/
theorem c9_stop_behavior :
    (∀ (s : Session),
      CodexSession.stop s = (s, [.stopJob, .deleteBuffers, .deletePatchBuffer]) ∧
      sendsOf (CodexSession.stop s).2 = [] ∧
      stop_codex_session (some s) = (none, [.stopJob, .deleteBuffers, .deletePatchBuffer]) ∧
      CodexSession.stop (CodexSession.stop s).1 = CodexSession.stop s ∧
      (CodexSession.stop s).1.lastApprovalRequestType = s.lastApprovalRequestType) ∧
    stop_codex_session none = (none, [.printMessage "Codex session does not exist."]) ∧
    (∀ (s : Session) (i : Json) (m : EventMessage),
      handleEvent (CodexSession.stop s).1 i m = handleEvent s i m) :=
  ⟨fun _ => ⟨rfl, rfl, rfl, rfl, rfl⟩, rfl, fun _ _ _ => rfl⟩

/-- Counterexample for C9 as stated: after `stop()`, dispatching an
`agent_message` event to the same session object is not a no-op — the
handler still appends output (in the real plugin it would write to a
deleted buffer), because nothing records that the session was stopped. -/
theorem c9_counterexample :
    (handleEvent (CodexSession.stop initialSession).1 (.str "e1")
        (.agentMessage (.str "hi"))).2 = [.appendOutput ("codex\n" ++ pyStrVal (.str "hi"))] ∧
    (handleEvent (CodexSession.stop initialSession).1 (.str "e1")
        (.agentMessage (.str "hi"))).1.outputLines ≠
      (CodexSession.stop initialSession).1.outputLines := by
  constructor
  · rfl
  · intro h
    simp [CodexSession.stop, handleEvent, appendOutput, initialSession] at h

/-- Claim C5: `FileChange.from_dict` on a dict maps the three recognized
type tags to exactly their own payload shape, and any other tag (absent,
non-string, or unrecognized) to a bare `delete` with no payload. -/
theorem c5_filechange_decode :
    ∀ (fs : List (String × Json)),
      (((Json.obj fs).get "type" .null).asStringD ∉ (["add", "delete", "update"] : List String) →
        FileChange.from_dict (.obj fs) = .ok ⟨.delete, .null, .null, .null⟩) ∧
      (((Json.obj fs).get "type" .null).asStringD = "add" →
        FileChange.from_dict (.obj fs) =
          .ok ⟨.add, (Json.obj fs).get "content" .null, .null, .null⟩) ∧
      (((Json.obj fs).get "type" .null).asStringD = "delete" →
        FileChange.from_dict (.obj fs) = .ok ⟨.delete, .null, .null, .null⟩) ∧
      (((Json.obj fs).get "type" .null).asStringD = "update" →
        FileChange.from_dict (.obj fs) =
          .ok ⟨.update, .null, (Json.obj fs).get "unified_diff" .null,
            (Json.obj fs).get "move_path" .null⟩) := by
  intro fs
  refine ⟨fun h => ?_, fun h => ?_, fun h => ?_, fun h => ?_⟩
  · simp only [List.mem_cons, List.not_mem_nil, or_false, not_or] at h
    obtain ⟨ha, hd, hu⟩ := h
    simp [FileChange.from_dict, ha, hd, hu]
  · simp [FileChange.from_dict, h]
  · simp [FileChange.from_dict, h]
  · simp [FileChange.from_dict, h]

/-- Witness for C5: an unrecognized tag `"rename"`, a missing tag, and the
three recognized tags on concrete dicts. -/
theorem c5_filechange_decode_witness :
    FileChange.from_dict (.obj [("type", .str "rename")]) =
        .ok ⟨.delete, .null, .null, .null⟩ ∧
    FileChange.from_dict (.obj []) = .ok ⟨.delete, .null, .null, .null⟩ ∧
    FileChange.from_dict (.obj [("type", .str "add"), ("content", .str "x")]) =
        .ok ⟨.add, .str "x", .null, .null⟩ ∧
    FileChange.from_dict (.obj [("type", .str "delete")]) =
        .ok ⟨.delete, .null, .null, .null⟩ ∧
    FileChange.from_dict (.obj [("type", .str "update"), ("unified_diff", .str "d")]) =
        .ok ⟨.update, .null, .str "d", .null⟩ := by
  refine ⟨(c5_filechange_decode [("type", .str "rename")]).1 (by decide),
    (c5_filechange_decode []).1 (by decide),
    (c5_filechange_decode [("type", .str "add"), ("content", .str "x")]).2.1 (by decide),
    (c5_filechange_decode [("type", .str "delete")]).2.2.1 (by decide),
    (c5_filechange_decode [("type", .str "update"), ("unified_diff", .str "d")]).2.2.2 (by decide)⟩

/-- The enumerated `msg.type` tags the decoder recognizes, in dispatch
order. -/
def knownMsgTags : List String :=
  ["error", "task_started", "task_complete", "token_count", "agent_message", "agent_reasoning",
   "session_configured", "mcp_tool_call_begin", "mcp_tool_call_end", "exec_command_begin",
   "exec_command_end", "exec_approval_request", "apply_patch_approval_request",
   "background_event", "patch_apply_begin", "patch_apply_end", "get_history_entry_response"]

/-- Claim C4: a well-formed event object whose `msg.type` is not a known
tag decodes to the `Unknown` variant carrying the whole raw msg object —
never an error — and dispatching that variant appends its rendering to the
output (the generic render-raw path), rather than dropping it. -/
theorem c4_unknown_tag_tolerance :
    ∀ (s : Session) (i : Json) (fs : List (String × Json)),
      ((Json.obj fs).get "type" .null).asStringD ∉ knownMsgTags →
      EventMessage.from_dict (.obj fs) = .ok (.unknown (.obj fs)) ∧
      (∀ (idv : Json),
        Event.from_json (some (.obj [("id", idv), ("msg", .obj fs)])) =
          .ok ⟨idv, .unknown (.obj fs)⟩) ∧
      handleEvent s i (.unknown (.obj fs)) =
        ({ s with outputLines :=
            s.outputLines ++ splitlines (renderMessage (.unknown (.obj fs))) ++ [""] },
          [.appendOutput (renderMessage (.unknown (.obj fs)))]) := by
  intro s i fs h
  simp only [knownMsgTags, List.mem_cons, List.not_mem_nil, or_false, not_or] at h
  obtain ⟨h1, h2, h3, h4, h5, h6, h7, h8, h9, h10, h11, h12, h13, h14, h15, h16, h17⟩ := h
  have hdict : EventMessage.from_dict (.obj fs) = .ok (.unknown (.obj fs)) := by
    simp [EventMessage.from_dict, h1, h2, h3, h4, h5, h6, h7, h8, h9, h10, h11, h12, h13, h14,
      h15, h16, h17]
  refine ⟨hdict, fun idv => ?_, rfl⟩
  simp [Event.from_json, Json.getItem, List.lookup, hdict]

/-- Witness for C4 at the spec's example payload
`{"id":"x","msg":{"type":"totally_new_kind","foo":1}}`. -/
theorem c4_unknown_tag_tolerance_witness :
    EventMessage.from_dict (.obj [("type", .str "totally_new_kind"), ("foo", .num 1)]) =
        .ok (.unknown (.obj [("type", .str "totally_new_kind"), ("foo", .num 1)])) ∧
    Event.from_json (some (.obj [("id", .str "x"),
        ("msg", .obj [("type", .str "totally_new_kind"), ("foo", .num 1)])])) =
      .ok ⟨.str "x", .unknown (.obj [("type", .str "totally_new_kind"), ("foo", .num 1)])⟩ := by
  refine ⟨(c4_unknown_tag_tolerance initialSession .null
      [("type", .str "totally_new_kind"), ("foo", .num 1)] (by decide)).1,
    (c4_unknown_tag_tolerance initialSession .null
      [("type", .str "totally_new_kind"), ("foo", .num 1)] (by decide)).2.1 (.str "x")⟩

theorem lookup_append_ne (fs : List (String × Json)) (k k2 : String) (v : Json)
    (h : k2 ≠ k) : List.lookup k2 (fs ++ [(k, v)]) = List.lookup k2 fs := by
  induction fs with
  | nil => simp [List.lookup, beq_false_of_ne h]
  | cons p rest ih =>
    cases hbeq : (k2 == p.1) <;> simp [List.lookup, hbeq, ih]

theorem lookup_append_self (fs : List (String × Json)) (k : String) (v : Json)
    (h : List.lookup k fs = none) : List.lookup k (fs ++ [(k, v)]) = some v := by
  induction fs with
  | nil => simp [List.lookup]
  | cons p rest ih =>
    cases hbeq : (k == p.1) with
    | true => simp [List.lookup, hbeq] at h
    | false =>
      simp only [List.lookup, hbeq] at h
      simp [List.lookup, hbeq, ih h]

/-- Claim C10: an `exec_command_end` object with no `exit_code` key decodes
with `exit_code = 0`, is decoded identically to the same object carrying an
explicit `exit_code: 0`, and its dispatch rewrites the running entry to
`command (OK)` — a missing exit code is indistinguishable from a successful
one. -/
theorem c10_missing_exit_code :
    ∀ (s : Session) (i : Json) (fs : List (String × Json)),
      ((Json.obj fs).get "type" .null).asStringD = "exec_command_end" →
      fs.lookup "exit_code" = none →
      EventMessage.from_dict (.obj fs) =
        .ok (.execCommandEnd ((Json.obj fs).get "call_id" .null)
          ((Json.obj fs).get "stdout" .null) ((Json.obj fs).get "stderr" .null) (.num 0)) ∧
      EventMessage.from_dict (.obj fs) =
        EventMessage.from_dict (.obj (fs ++ [("exit_code", .num 0)])) ∧
      (∀ (m : EventMessage), EventMessage.from_dict (.obj fs) = .ok m →
        handleEvent s i m =
          ({ s with outputLines := s.outputLines.map (substLine runningPattern "command (OK)") },
            [.replaceLastOutputLine runningPattern "command (OK)"])) := by
  intro s i fs ht hmiss
  have hne : ∀ (k2 : String), k2 ≠ "exit_code" →
      (Json.obj (fs ++ [("exit_code", Json.num 0)])).get k2 .null = (Json.obj fs).get k2 .null := by
    intro k2 hk
    simp [Json.get, lookup_append_ne fs "exit_code" k2 (.num 0) hk]
  have hec : (Json.obj fs).get "exit_code" (.num 0) = .num 0 := by
    simp [Json.get, hmiss]
  have hec2 : (Json.obj (fs ++ [("exit_code", Json.num 0)])).get "exit_code" (.num 0) = .num 0 := by
    simp [Json.get, lookup_append_self fs "exit_code" (.num 0) hmiss]
  have ht2 : ((Json.obj (fs ++ [("exit_code", Json.num 0)])).get "type" .null).asStringD =
      "exec_command_end" := by
    rw [hne "type" (by decide)]
    exact ht
  have hfd : EventMessage.from_dict (.obj fs) =
      .ok (.execCommandEnd ((Json.obj fs).get "call_id" .null)
        ((Json.obj fs).get "stdout" .null) ((Json.obj fs).get "stderr" .null) (.num 0)) := by
    have h1 : ((Json.obj fs).get "type" .null).asStringD ≠ "error" := by rw [ht]; decide
    have h2 : ((Json.obj fs).get "type" .null).asStringD ≠ "task_started" := by rw [ht]; decide
    have h3 : ((Json.obj fs).get "type" .null).asStringD ≠ "task_complete" := by rw [ht]; decide
    have h4 : ((Json.obj fs).get "type" .null).asStringD ≠ "token_count" := by rw [ht]; decide
    have h5 : ((Json.obj fs).get "type" .null).asStringD ≠ "agent_message" := by rw [ht]; decide
    have h6 : ((Json.obj fs).get "type" .null).asStringD ≠ "agent_reasoning" := by
      rw [ht]; decide
    have h7 : ((Json.obj fs).get "type" .null).asStringD ≠ "session_configured" := by
      rw [ht]; decide
    have h8 : ((Json.obj fs).get "type" .null).asStringD ≠ "mcp_tool_call_begin" := by
      rw [ht]; decide
    have h9 : ((Json.obj fs).get "type" .null).asStringD ≠ "mcp_tool_call_end" := by
      rw [ht]; decide
    have h10 : ((Json.obj fs).get "type" .null).asStringD ≠ "exec_command_begin" := by
      rw [ht]; decide
    simp [EventMessage.from_dict, h1, h2, h3, h4, h5, h6, h7, h8, h9, h10, ht, hec]
  refine ⟨hfd, ?_, ?_⟩
  · rw [hfd]
    have h1 : ((Json.obj (fs ++ [("exit_code", Json.num 0)])).get "type" .null).asStringD ≠
        "error" := by rw [ht2]; decide
    have h2 : ((Json.obj (fs ++ [("exit_code", Json.num 0)])).get "type" .null).asStringD ≠
        "task_started" := by rw [ht2]; decide
    have h3 : ((Json.obj (fs ++ [("exit_code", Json.num 0)])).get "type" .null).asStringD ≠
        "task_complete" := by rw [ht2]; decide
    have h4 : ((Json.obj (fs ++ [("exit_code", Json.num 0)])).get "type" .null).asStringD ≠
        "token_count" := by rw [ht2]; decide
    have h5 : ((Json.obj (fs ++ [("exit_code", Json.num 0)])).get "type" .null).asStringD ≠
        "agent_message" := by rw [ht2]; decide
    have h6 : ((Json.obj (fs ++ [("exit_code", Json.num 0)])).get "type" .null).asStringD ≠
        "agent_reasoning" := by rw [ht2]; decide
    have h7 : ((Json.obj (fs ++ [("exit_code", Json.num 0)])).get "type" .null).asStringD ≠
        "session_configured" := by rw [ht2]; decide
    have h8 : ((Json.obj (fs ++ [("exit_code", Json.num 0)])).get "type" .null).asStringD ≠
        "mcp_tool_call_begin" := by rw [ht2]; decide
    have h9 : ((Json.obj (fs ++ [("exit_code", Json.num 0)])).get "type" .null).asStringD ≠
        "mcp_tool_call_end" := by rw [ht2]; decide
    have h10 : ((Json.obj (fs ++ [("exit_code", Json.num 0)])).get "type" .null).asStringD ≠
        "exec_command_begin" := by rw [ht2]; decide
    simp [EventMessage.from_dict, h1, h2, h3, h4, h5, h6, h7, h8, h9, h10, ht2, hec2,
      hne "call_id" (by decide), hne "stdout" (by decide), hne "stderr" (by decide)]
  · intro m hm
    rw [hfd] at hm
    have hm2 := Except.ok.inj hm
    rw [← hm2]
    simp [handleEvent, replace_last_output_line, jsonEqZero]

/-- Witness for C10 on a concrete `exec_command_end` without exit code. -/
theorem c10_missing_exit_code_witness :
    EventMessage.from_dict (.obj [("type", .str "exec_command_end"), ("call_id", .str "c1")]) =
        .ok (.execCommandEnd (.str "c1") .null .null (.num 0)) ∧
    (handleEvent initialSession (.str "e")
        (.execCommandEnd (.str "c1") .null .null (.num 0))).2 =
      [.replaceLastOutputLine runningPattern "command (OK)"] := by
  have h := c10_missing_exit_code initialSession (.str "e")
    [("type", .str "exec_command_end"), ("call_id", .str "c1")] (by decide) rfl
  refine ⟨h.1, ?_⟩
  have h3 := h.2.2 (.execCommandEnd (.str "c1") .null .null (.num 0)) h.1
  rw [h3]

theorem map_substLine_id (pattern repl : String) (lines : List String)
    (h : ∀ l ∈ lines, occursStr l pattern = false) :
    lines.map (substLine pattern repl) = lines := by
  induction lines with
  | nil => rfl
  | cons l rest ih =>
    have hl : occursStr l pattern = false := h l (List.mem_cons_self l rest)
    have hrest := ih (fun x hx => h x (List.mem_cons_of_mem l hx))
    simp [substLine, hl, hrest]

/-- Claim C2 (amended): `exec_command_end` handling ignores the event's
`call_id` entirely; it rewrites every output line containing
`command (running...)` to `command (OK)` or `command (ERROR)` by exit
code, keeps the line count unchanged (so nothing is appended), and leaves
the buffer untouched when no line matches. -/
theorem c2_exec_command_end_behavior :
    ∀ (s : Session) (i cid cid2 so se ec : Json),
      handleEvent s i (.execCommandEnd cid so se ec) =
        handleEvent s i (.execCommandEnd cid2 so se ec) ∧
      (handleEvent s i (.execCommandEnd cid so se ec)).1.outputLines =
        s.outputLines.map (substLine runningPattern
          (if jsonEqZero ec then "command (OK)" else "command (ERROR)")) ∧
      (handleEvent s i (.execCommandEnd cid so se ec)).1.outputLines.length =
        s.outputLines.length ∧
      ((∀ l ∈ s.outputLines, occursStr l runningPattern = false) →
        (handleEvent s i (.execCommandEnd cid so se ec)).1.outputLines = s.outputLines) ∧
      (handleEvent s i (.execCommandEnd cid so se ec)).2 =
        [.replaceLastOutputLine runningPattern
          (if jsonEqZero ec then "command (OK)" else "command (ERROR)")] := by
  intro s i cid cid2 so se ec
  refine ⟨rfl, rfl, ?_, fun h => ?_, rfl⟩
  · simp [handleEvent, replace_last_output_line]
  · exact map_substLine_id _ _ _ h

/-- Witness for C2 (amended) on the untouched initial buffer. -/
theorem c2_exec_command_end_behavior_witness :
    (handleEvent initialSession (.str "e")
        (.execCommandEnd (.str "c1") .null .null (.num 1))).1.outputLines =
      initialSession.outputLines := by
  exact (c2_exec_command_end_behavior initialSession (.str "e") (.str "c1") (.str "x")
    .null .null (.num 1)).2.2.2.1 (by decide)

/-- The spec scenario behind C2's counterexample: two commands rendered as
running, then the end of the first with a failing exit code. -/
def c2Events : List (Json × EventMessage) :=
  [(.str "e1", .execCommandBegin (.str "c1") (.arr [.str "ls"]) .null),
   (.str "e2", .execCommandBegin (.str "c2") (.arr [.str "mv"]) .null),
   (.str "e3", .execCommandEnd (.str "c1") .null .null (.num 1))]

/-- Counterexample for C2 as stated: after `begin c1`, `begin c2`,
`end c1 (exit 1)`, BOTH running entries read `command (ERROR)` — the entry
of `c2`, whose end never arrived, was rewritten too, so correlation is not
by `call_id` and not "exactly that entry".  (A lone `end` with no matching
`begin` also appends nothing, see the amended theorem.) -/
theorem c2_counterexample :
    (dispatchEvents initialSession c2Events).1.outputLines =
      ["", "command (ERROR)", "$ ls", "", "command (ERROR)", "$ mv", ""] := by
  rfl

/-- Claim C3 (amended): decoding fails exactly when the line is malformed
JSON, not an object, lacks `id` or `msg`, has a non-object `msg`, or has a
malformed nested `changes`/`entry` payload; and the failure is an exception
escaping `_handle_job_output` (there is no `ProtocolError` value), the
errors of the dispatch entry point being exactly the decode errors. -/
theorem c3_decode_failures :
    ∀ (s : Session) (line : Option Json),
      ((∃ e, handle_job_output s line = .error e) ↔ wellFormedLine line = false) ∧
      (∀ e, handle_job_output s line = .error e ↔ Event.from_json line = .error e) := by
  intro s line
  have hiff : ∀ e, handle_job_output s line = .error e ↔ Event.from_json line = .error e := by
    intro e
    cases hdec : Event.from_json line with
    | error e2 => simp [handle_job_output, hdec]
    | ok ev => simp [handle_job_output, hdec]
  constructor
  · constructor
    · rintro ⟨e, he⟩
      exact (Event.from_json_err_iff line).mp ⟨e, (hiff e).mp he⟩
    · intro h
      obtain ⟨e, he⟩ := (Event.from_json_err_iff line).mpr h
      exact ⟨e, (hiff e).mpr he⟩
  · exact hiff

/-- Counterexample for C3 as stated: a malformed line, a line missing `id`,
and a well-formed-JSON line with a non-object `msg` all make
`_handle_job_output` itself return the raised error — the failure unwinds
past the Wire Codec boundary instead of becoming a swallowed
`ProtocolError` value, and the third case fails on neither malformed JSON
nor a missing id. -/
theorem c3_counterexample :
    handle_job_output initialSession none = .error .jsonDecodeError ∧
    handle_job_output initialSession
        (some (.obj [("msg", .obj [("type", .str "task_started")])])) =
      .error (.keyError "id") ∧
    handle_job_output initialSession (some (.obj [("id", .str "x"), ("msg", .arr [])])) =
      .error .attributeError := ⟨rfl, rfl, rfl⟩

theorem dispatchEvents_cons (s : Session) (i : Json) (m : EventMessage)
    (rest : List (Json × EventMessage)) :
    dispatchEvents s ((i, m) :: rest) =
      ((dispatchEvents (handleEvent s i m).1 rest).1,
        (handleEvent s i m).2 ++ (dispatchEvents (handleEvent s i m).1 rest).2) := rfl

theorem dispatchEvents_append (s : Session) (l1 l2 : List (Json × EventMessage)) :
    dispatchEvents s (l1 ++ l2) =
      ((dispatchEvents (dispatchEvents s l1).1 l2).1,
        (dispatchEvents s l1).2 ++ (dispatchEvents (dispatchEvents s l1).1 l2).2) := by
  induction l1 generalizing s with
  | nil => simp [dispatchEvents]
  | cons e rest ih =>
    obtain ⟨i, m⟩ := e
    simp [dispatchEvents, ih, List.append_assoc]

theorem dispatchEvents_snoc (s : Session) (l : List (Json × EventMessage)) (i : Json)
    (m : EventMessage) :
    dispatchEvents s (l ++ [(i, m)]) =
      ((handleEvent (dispatchEvents s l).1 i m).1,
        (dispatchEvents s l).2 ++ (handleEvent (dispatchEvents s l).1 i m).2) := by
  induction l generalizing s with
  | nil => simp [dispatchEvents]
  | cons e rest ih =>
    obtain ⟨i2, m2⟩ := e
    simp [dispatchEvents, ih, List.append_assoc]

theorem handleEvent_preserves_outputName (s : Session) (i : Json) (m : EventMessage)
    (h : isTaskLifecycleEvent m = false) :
    (handleEvent s i m).1.outputName = s.outputName := by
  cases m with
  | applyPatchApprovalRequest chs r g =>
    rcases hf : chs.filter isUpdateChange with _ | ⟨⟨p0, ch0⟩, rest⟩ <;>
      simp [handleEvent, hf, showStatusInInput]
  | taskStarted => exact absurd h (by simp [isTaskLifecycleEvent])
  | taskComplete lam => exact absurd h (by simp [isTaskLifecycleEvent])
  | _ =>
    simp [handleEvent, appendOutput, showStatusInInput, replace_last_output_line]

theorem dispatch_agent_messages (msgs : List (Json × Json)) :
    ∀ (s : Session),
      (dispatchEvents s (msgs.map (fun p => (p.1, .agentMessage p.2)))).1.outputName =
        s.outputName ∧
      countReady (dispatchEvents s (msgs.map (fun p => (p.1, .agentMessage p.2)))).2 = 0 := by
  induction msgs with
  | nil => exact fun s => ⟨rfl, rfl⟩
  | cons p rest ih =>
    intro s
    simp only [List.map_cons, dispatchEvents, handleEvent]
    have h1 := (ih (appendOutput s ("codex\n" ++ pyStrVal p.2)).1).1
    have h2 := (ih (appendOutput s ("codex\n" ++ pyStrVal p.2)).1).2
    refine ⟨h1, ?_⟩
    simp only [countReady, List.filter_append, List.length_append] at h2 ⊢
    simpa [appendOutput, isReadyNotif] using h2

/-- Claim C6: `task_started` makes the status Busy with the "thinking"
notification, `task_complete` makes it Idle with the "ready" notification,
no other event changes the status, and the sequence `task_started`, any
number of `agent_message`s, `task_complete` runs Idle→Busy→Idle with
exactly one "ready" notification, which comes last. -/
theorem c6_task_lifecycle :
    (∀ (s : Session) (i : Json),
      taskStatus (handleEvent s i .taskStarted).1 = .busy ∧
      (handleEvent s i .taskStarted).2 = [.setOutputBufferName thinkingTitle]) ∧
    (∀ (s : Session) (i lam : Json),
      taskStatus (handleEvent s i (.taskComplete lam)).1 = .idle ∧
      (handleEvent s i (.taskComplete lam)).2 = [.setOutputBufferName readyTitle]) ∧
    (∀ (s : Session) (i : Json) (m : EventMessage), isTaskLifecycleEvent m = false →
      taskStatus (handleEvent s i m).1 = taskStatus s) ∧
    (∀ (s : Session) (i j lam : Json) (msgs : List (Json × Json)),
      taskStatus s = .idle →
      (∀ (pre : List (Json × Json)),
        taskStatus (dispatchEvents s
          ((i, .taskStarted) :: pre.map (fun p => (p.1, .agentMessage p.2)))).1 = .busy) ∧
      taskStatus (dispatchEvents s
        ((i, .taskStarted) :: (msgs.map (fun p => (p.1, .agentMessage p.2)) ++
          [(j, .taskComplete lam)]))).1 = .idle ∧
      countReady (dispatchEvents s
        ((i, .taskStarted) :: (msgs.map (fun p => (p.1, .agentMessage p.2)) ++
          [(j, .taskComplete lam)]))).2 = 1 ∧
      (dispatchEvents s
        ((i, .taskStarted) :: (msgs.map (fun p => (p.1, .agentMessage p.2)) ++
          [(j, .taskComplete lam)]))).2.getLast? = some (.setOutputBufferName readyTitle)) := by
  have hready_ne : (thinkingTitle = readyTitle) = False := by
    simp [thinkingTitle, readyTitle]
  refine ⟨fun s i => ⟨?_, rfl⟩, fun s i lam => ⟨?_, rfl⟩, fun s i m h => ?_, ?_⟩
  · simp [handleEvent, taskStatus]
  · simp [handleEvent, taskStatus, readyTitle, thinkingTitle]
  · have := handleEvent_preserves_outputName s i m h
    simp [taskStatus, this]
  · intro s i j lam msgs hidle
    have hb1 := (dispatch_agent_messages msgs (handleEvent s i EventMessage.taskStarted).1).1
    have hb2 := (dispatch_agent_messages msgs (handleEvent s i EventMessage.taskStarted).1).2
    have hne2 : ¬(readyTitle = thinkingTitle) := by simp [readyTitle, thinkingTitle]
    have hname : (handleEvent s i EventMessage.taskStarted).1.outputName = thinkingTitle := rfl
    have e1 : (handleEvent s i EventMessage.taskStarted).2 =
        [Effect.setOutputBufferName thinkingTitle] := rfl
    have e3 : ∀ (a : Session), (handleEvent a j (EventMessage.taskComplete lam)).2 =
        [Effect.setOutputBufferName readyTitle] := fun a => rfl
    refine ⟨fun pre => ?_, ?_, ?_, ?_⟩
    · rw [dispatchEvents_cons]
      have hp := (dispatch_agent_messages pre (handleEvent s i EventMessage.taskStarted).1).1
      simp [taskStatus, hp, hname]
    · rw [dispatchEvents_cons, dispatchEvents_snoc]
      simp [handleEvent, taskStatus, hne2]
    · rw [dispatchEvents_cons, dispatchEvents_snoc, e1, e3]
      simp only [countReady, List.filter_append, List.length_append] at hb2 ⊢
      rw [hb2]
      rfl
    · rw [dispatchEvents_cons, dispatchEvents_snoc]
      simp only [handleEvent]
      rw [show (([Effect.setOutputBufferName thinkingTitle] :
              List Effect) ++
            ((dispatchEvents { s with outputName := thinkingTitle }
                (msgs.map (fun p => (p.1, EventMessage.agentMessage p.2)))).2 ++
              [Effect.setOutputBufferName readyTitle])) =
          ((Effect.setOutputBufferName thinkingTitle ::
            (dispatchEvents { s with outputName := thinkingTitle }
              (msgs.map (fun p => (p.1, EventMessage.agentMessage p.2)))).2) ++
            Effect.setOutputBufferName readyTitle :: []) from by simp]
      rw [List.getLast?_append_cons]
      rfl

/-- Witness for C6 on a concrete started/message/complete run. -/
theorem c6_task_lifecycle_witness :
    taskStatus (handleEvent initialSession (.str "t") .taskStarted).1 = .busy ∧
    taskStatus (handleEvent initialSession (.str "a")
        (.agentMessage (.str "m"))).1 = taskStatus initialSession ∧
    countReady (dispatchEvents initialSession
      [(.str "t", .taskStarted), (.str "a", .agentMessage (.str "hello")),
        (.str "c", .taskComplete .null)]).2 = 1 := by
  refine ⟨(c6_task_lifecycle.1 initialSession (.str "t")).1,
    c6_task_lifecycle.2.2.1 initialSession (.str "a") (.agentMessage (.str "m")) rfl, ?_⟩
  exact (c6_task_lifecycle.2.2.2 initialSession (.str "t") (.str "c") .null
    [((.str "a"), (.str "hello"))] rfl).2.2.1

theorem isPrefixL_append (a b : List Char) : isPrefixL a (a ++ b) = true := by
  induction a with
  | nil => rfl
  | cons c rest ih => simp [isPrefixL, ih]

theorem occursL_self_append (pat b : List Char) : occursL pat (pat ++ b) = true := by
  cases pat with
  | nil =>
    cases b with
    | nil => rfl
    | cons c rest => simp [occursL, isPrefixL]
  | cons c rest =>
    simp only [List.cons_append, occursL, Bool.or_eq_true]
    exact Or.inl (isPrefixL_append (c :: rest) b)

theorem occursL_append_right (pat a b : List Char) (h : occursL pat b = true) :
    occursL pat (a ++ b) = true := by
  induction a with
  | nil => simpa using h
  | cons c rest ih =>
    simp only [List.cons_append, occursL, Bool.or_eq_true]
    exact Or.inr ih

theorem occurs_join (sep : String) (l : List String) (x : String) (hx : x ∈ l) :
    occursL x.data (joinSep sep l).data = true := by
  induction l with
  | nil => cases hx
  | cons y rest ih =>
    cases hx with
    | head =>
      cases rest with
      | nil => simpa using occursL_self_append x.data []
      | cons z zs =>
        show occursL x.data ((x ++ sep ++ joinSep sep (z :: zs)).data) = true
        rw [String.data_append, String.data_append, List.append_assoc]
        exact occursL_self_append x.data (sep.data ++ (joinSep sep (z :: zs)).data)
    | tail _ hmem =>
      cases rest with
      | nil => cases hmem
      | cons z zs =>
        show occursL x.data ((y ++ sep ++ joinSep sep (z :: zs)).data) = true
        rw [String.data_append, String.data_append, List.append_assoc]
        exact occursL_append_right x.data y.data _
          (occursL_append_right x.data sep.data _ (ih hmem))

theorem find?_eq_head_filter {α : Type} (p : α → Bool) (l : List α) :
    l.find? p = (l.filter p).head? := by
  induction l with
  | nil => rfl
  | cons a rest ih =>
    cases hp : p a with
    | true =>
      rw [List.find?_cons_of_pos rest hp, List.filter_cons_of_pos hp]
      rfl
    | false =>
      rw [List.find?_cons_of_neg rest (by simp [hp]), List.filter_cons_of_neg (by simp [hp])]
      exact ih

/-- Claim C8: a patch approval request surfaces a status text opening with
the request header and containing one `type path` line for every proposed
change, shows at most one diff preview, shows exactly one precisely when an
update-type change exists, and the previewed change is the first
update-type change in iteration order — `List.find?`, which provably
coincides with the head of the source's filtered list, so the selection is
positional, not by size or any other criterion. -/
theorem c8_patch_approval_preview :
    ∀ (s : Session) (i reason gr : Json) (changes : List (String × FileChange)),
      (handleEvent s i (.applyPatchApprovalRequest changes reason gr)).2.head? =
        some (.showStatusInInput ("PATCH APPROVAL REQUEST: " ++ orEmpty reason ++ "\n" ++
          file_changes_summary changes)) ∧
      (∀ pc ∈ changes,
        occursStr ("PATCH APPROVAL REQUEST: " ++ orEmpty reason ++ "\n" ++
          file_changes_summary changes) (pc.2.type.value ++ " " ++ pc.1) = true) ∧
      ((handleEvent s i (.applyPatchApprovalRequest changes reason gr)).2.filter
          isPreviewEffect).length ≤ 1 ∧
      ((changes.find? isUpdateChange).isSome ↔ ∃ pc ∈ changes, isUpdateChange pc = true) ∧
      ((handleEvent s i (.applyPatchApprovalRequest changes reason gr)).2.filter
          isPreviewEffect).length =
        (if (changes.find? isUpdateChange).isSome then 1 else 0) ∧
      changes.find? isUpdateChange = (changes.filter isUpdateChange).head? ∧
      (∀ (p : String) (ch : FileChange), changes.find? isUpdateChange = some (p, ch) →
        (handleEvent s i (.applyPatchApprovalRequest changes reason gr)).2 =
          [.showStatusInInput ("PATCH APPROVAL REQUEST: " ++ orEmpty reason ++ "\n" ++
            file_changes_summary changes), .showPatchPreview p ch.unified_diff]) ∧
      (changes.find? isUpdateChange = none →
        (handleEvent s i (.applyPatchApprovalRequest changes reason gr)).2 =
          [.showStatusInInput ("PATCH APPROVAL REQUEST: " ++ orEmpty reason ++ "\n" ++
            file_changes_summary changes)]) := by
  intro s i reason gr changes
  have hocc : ∀ pc ∈ changes,
      occursStr ("PATCH APPROVAL REQUEST: " ++ orEmpty reason ++ "\n" ++
        file_changes_summary changes) (pc.2.type.value ++ " " ++ pc.1) = true := by
    intro pc hpc
    show occursL (pc.2.type.value ++ " " ++ pc.1).data
      (("PATCH APPROVAL REQUEST: " ++ orEmpty reason ++ "\n" ++
        file_changes_summary changes).data) = true
    rw [String.data_append]
    refine occursL_append_right _ _ _ ?_
    exact occurs_join "\n" (changes.map (fun pc => pc.2.type.value ++ " " ++ pc.1)) _
      (List.mem_map_of_mem (fun pc => pc.2.type.value ++ " " ++ pc.1) hpc)
  have hfind := find?_eq_head_filter isUpdateChange changes
  have hsome : (changes.find? isUpdateChange).isSome ↔ ∃ pc ∈ changes, isUpdateChange pc = true := by
    rw [List.find?_isSome]
  rcases hf : changes.filter isUpdateChange with _ | ⟨⟨p0, ch0⟩, rest⟩
  · rw [hf] at hfind
    refine ⟨?_, hocc, ?_, hsome, ?_, ?_, ?_, ?_⟩
    · simp [handleEvent, hf, showStatusInInput]
    · simp [handleEvent, hf, showStatusInInput, isPreviewEffect]
    · rw [hfind]
      simp [handleEvent, hf, showStatusInInput, isPreviewEffect]
    · exact hfind
    · intro p ch hpc
      rw [hfind] at hpc
      exact Option.noConfusion hpc
    · intro _
      simp [handleEvent, hf, showStatusInInput]
  · rw [hf] at hfind
    refine ⟨?_, hocc, ?_, hsome, ?_, ?_, ?_, ?_⟩
    · simp [handleEvent, hf, showStatusInInput]
    · simp [handleEvent, hf, showStatusInInput, isPreviewEffect]
    · rw [hfind]
      simp [handleEvent, hf, showStatusInInput, isPreviewEffect]
    · exact hfind
    · intro p ch hpc
      rw [hfind] at hpc
      have heq : (p0, ch0) = (p, ch) := Option.some.inj hpc
      have hp1 : p0 = p := congrArg Prod.fst heq
      have hp2 : ch0 = ch := congrArg Prod.snd heq
      subst hp1
      subst hp2
      simp [handleEvent, hf, showStatusInInput]
    · intro hnone
      rw [hfind] at hnone
      exact Option.noConfusion hnone

/-- Concrete changes for the C8 witness: an add followed by an update. -/
def c8Changes : List (String × FileChange) :=
  [("a.txt", ⟨.add, .str "c", .null, .null⟩),
   ("b.txt", ⟨.update, .null, .str "diff", .null⟩)]

/-- Witness for C8: on an add-then-update request the preview shown is the
(first and only) update-type change and the summary text contains the add
entry's `type path` line; on an add-only request no preview is shown. -/
theorem c8_patch_approval_preview_witness :
    (handleEvent initialSession (.str "p")
        (.applyPatchApprovalRequest c8Changes .null .null)).2 =
      [.showStatusInInput ("PATCH APPROVAL REQUEST: " ++ orEmpty .null ++ "\n" ++
        file_changes_summary c8Changes),
       .showPatchPreview "b.txt" (.str "diff")] ∧
    occursStr ("PATCH APPROVAL REQUEST: " ++ orEmpty .null ++ "\n" ++
      file_changes_summary c8Changes)
      ((FileChangeType.add.value ++ " " ++ "a.txt")) = true ∧
    (handleEvent initialSession (.str "p")
        (.applyPatchApprovalRequest [("a.txt", ⟨.add, .str "c", .null, .null⟩)] .null .null)).2 =
      [.showStatusInInput ("PATCH APPROVAL REQUEST: " ++ orEmpty .null ++ "\n" ++
        file_changes_summary [("a.txt", ⟨.add, .str "c", .null, .null⟩)])] := by
  refine ⟨(c8_patch_approval_preview initialSession (.str "p") .null .null
      c8Changes).2.2.2.2.2.2.1 "b.txt" ⟨.update, .null, .str "diff", .null⟩ rfl, ?_, ?_⟩
  · exact (c8_patch_approval_preview initialSession (.str "p") .null .null c8Changes).2.1
      ("a.txt", ⟨.add, .str "c", .null, .null⟩) (List.mem_cons_self _ _)
  · exact (c8_patch_approval_preview initialSession (.str "p") .null .null
      [("a.txt", ⟨.add, .str "c", .null, .null⟩)]).2.2.2.2.2.2.2 rfl
